import Mathlib

/-!
Verification development for the todomvc-api backend.

The definitions below are a shallow embedding of the task/person CRUD logic:

* src/common/models/task.py          — the Task dataclass
* src/common/repositories/task.py    — the listing SQL query
* src/common/services/task.py        — TaskService (save, get by id, list, soft delete)
* src/flask/app/views/task.py        — Tasks.get/post and TaskById.put/delete handlers
* src/flask/app/views/person.py      — Me.put handler

The store is modelled as a list of records.  The repository base class
(save / get_one) and the person service are not part of the sources, so
they are modelled from the specification of the repository collaborator
contract: save(entity) is insert-or-update keyed on entity_id, refreshing
changed_on, and get_one returns the matching entity or none.  Handlers
thread the store state explicitly and return the state paired with either
an error or the success payload, exactly mirroring the Python control flow
(a raise before any save leaves the state untouched).
-/

namespace TodoApi

/-- Whitespace characters removed by the Python method str.strip (the
ASCII ones; the sources only ever strip spaces). -/
def isPySpace (c : Char) : Bool :=
  c == ' ' || c == '\t' || c == '\n' || c == '\r' || c == '\x0b' || c == '\x0c'

/-- Embedding of the Python method str.strip used on title, first name and
last name: removes leading and trailing whitespace. -/
def pyStrip (s : String) : String :=
  String.mk (((s.data.dropWhile isPySpace).reverse.dropWhile isPySpace).reverse)

/-- A JSON value that a request body can carry in the completed field.
The handler coerces it with the Python bool() builtin, so only its
truthiness matters. -/
inductive Value where
  | vBool (b : Bool)
  | vNum (n : Int)
  | vStr (s : String)
deriving DecidableEq

/-- Embedding of the Python bool() truthiness coercion on a JSON value:
False, 0 and the empty string are falsy, everything else is truthy. -/
def pyBool : Value → Bool
  | .vBool b => b
  | .vNum n => n != 0
  | .vStr s => s != ""

/-- Embedding of the Python truthiness test (not x) applied to an optional
string body field: absent (None) and the empty string are falsy. -/
def pyFalsy : Option String → Bool
  | none => true
  | some s => s == ""

/-- Embedding of the Python check pattern used for every optional string
field: the field is not None and (not field or not str(field).strip()),
i.e. the field is provided but is empty or whitespace-only. -/
def providedButEmpty : Option String → Bool
  | none => false
  | some s => s == "" || pyStrip s == ""

/-- The Task record of src/common/models/task.py.  The fields entity_id,
active and changed_on come from the VersionedModel base class, which is
external; per the data model, active defaults to true and changed_on is
the timestamp of the last mutation. -/
structure Task where
  entity_id : String
  person_id : String
  title : String
  completed : Bool
  active : Bool := true
  changed_on : Nat := 0
deriving DecidableEq

/-- The Person record: entity id plus first and last name. -/
structure Person where
  entity_id : String
  first_name : String
  last_name : String
deriving DecidableEq

/-- Modelled from the spec: the repository collaborator contract
save(entity) -> entity — insert-or-update keyed on entity_id, refreshing
changed_on on every save (the repository base class is not under src/).
Returns the new store and the entity as saved. -/
def saveTask (st : List Task) (t : Task) (now : Nat) : List Task × Task :=
  let t' := { t with changed_on := now }
  if st.any (fun r => r.entity_id == t.entity_id) then
    (st.map fun r => if r.entity_id == t.entity_id then t' else r, t')
  else
    (st ++ [t'], t')

/-- Modelled from the spec: the repository collaborator contract
get_one(filter) -> entity | none, with the filter on entity_id as used by
TaskService.get_task_by_id (the repository base class is not under src/). -/
def getTask (st : List Task) (id : String) : Option Task :=
  st.find? (fun r => r.entity_id == id)

/-- The WHERE clause of the listing query in
src/common/repositories/task.py: person_id = %s AND active = true. -/
def taskMatches (p : String) (t : Task) : Bool :=
  t.person_id == p && t.active

/-- Comparator realising ORDER BY changed_on DESC. -/
def changedOnDesc (a b : Task) : Bool :=
  decide (b.changed_on ≤ a.changed_on)

/-- Embedding of TaskRepository.get_tasks_by_person_id_ordered
(src/common/repositories/task.py): SELECT * FROM task WHERE
person_id = %s AND active = true ORDER BY changed_on DESC. -/
def get_tasks_by_person_id_ordered (st : List Task) (p : String) : List Task :=
  (st.filter (taskMatches p)).mergeSort changedOnDesc

/-- Embedding of TaskService.get_tasks_by_person_id
(src/common/services/task.py), which delegates to the repository. -/
def get_tasks_by_person_id (st : List Task) (p : String) : List Task :=
  get_tasks_by_person_id_ordered st p

/-- Embedding of TaskService.delete_task (src/common/services/task.py):
sets active to False and saves the task. -/
def delete_task (st : List Task) (t : Task) (now : Nat) : List Task × Task :=
  saveTask st { t with active := false } now

/-- Modelled from the spec: PersonService.get_by_id through the repository
get_one contract (the person service is not under src/). -/
def getPerson (ps : List Person) (id : String) : Option Person :=
  ps.find? (fun r => r.entity_id == id)

/-- Modelled from the spec: repository save for Person, insert-or-update
keyed on entity_id (the person service and repository are not under src/). -/
def savePerson (ps : List Person) (p : Person) : List Person × Person :=
  if ps.any (fun r => r.entity_id == p.entity_id) then
    (ps.map fun r => if r.entity_id == p.entity_id then p else r, p)
  else
    (ps ++ [p], p)

/-- The errors the handlers raise (each InputValidationError message of the
views is one constructor; messages are pairwise distinct strings). -/
inductive ApiErr where
  | atLeastOneTaskField
  | titleEmptyIfProvided
  | titleRequired
  | titleEmpty
  | taskNotFound
  | updatePermission
  | deletePermission
  | atLeastOnePersonField
  | firstNameEmptyIfProvided
  | lastNameEmptyIfProvided
  | personNotFound
deriving DecidableEq

/-- The errors that report a field-shape validation problem (missing field
set, empty or whitespace-only provided field), as opposed to the not-found
and permission errors. -/
def ApiErr.isValidation : ApiErr → Bool
  | .taskNotFound => false
  | .updatePermission => false
  | .deletePermission => false
  | .personNotFound => false
  | _ => true

/-- The two conditional field assignments of TaskById.put: set the trimmed
title when one is provided, then the bool()-coerced completed flag when
one is provided; an absent field leaves the record untouched. -/
def applyUpdate (t : Task) (title : Option String) (completed : Option Value) :
    Task :=
  let t1 := match title with
    | some s => { t with title := pyStrip s }
    | none => t
  match completed with
  | some c => { t1 with completed := pyBool c }
  | none => t1

/-- The two conditional field assignments of Me.put: set the trimmed first
name when one is provided, then the trimmed last name when one is
provided; an absent field leaves the record untouched. -/
def applyProfile (p : Person) (first_name last_name : Option String) :
    Person :=
  let p1 := match first_name with
    | some f => { p with first_name := pyStrip f }
    | none => p
  match last_name with
  | some l => { p1 with last_name := pyStrip l }
  | none => p1

/-- Embedding of TaskById.put (src/flask/app/views/task.py).  The handler
returns the store after the request together with either the raised error
or the response payload.  The Bool in the payload records which source
expression produced the returned record, mirroring the code: true when it
is the result of the get_task_by_id call made after the save, false when
it is the value returned by the save call itself.  The final match arm for
a vanished record models the re-fetch coming back empty; it cannot occur. -/
def taskPut (st : List Task) (task_id : String) (actor : String)
    (title : Option String) (completed : Option Value) (now : Nat) :
    List Task × Except ApiErr (Task × Bool) :=
  if title = none ∧ completed = none then
    (st, .error .atLeastOneTaskField)
  else if providedButEmpty title then
    (st, .error .titleEmptyIfProvided)
  else
    match getTask st task_id with
    | none => (st, .error .taskNotFound)
    | some existing =>
      if existing.person_id ≠ actor then
        (st, .error .updatePermission)
      else
        let st2 := (saveTask st (applyUpdate existing title completed) now).1
        match getTask st2 task_id with
        | some updated => (st2, .ok (updated, true))
        | none => (st2, .error .taskNotFound)

/-- Embedding of TaskById.delete (src/flask/app/views/task.py): fetch the
task, report not-found, then the ownership mismatch, then soft delete. -/
def taskDelete (st : List Task) (task_id : String) (actor : String)
    (now : Nat) : List Task × Except ApiErr Unit :=
  match getTask st task_id with
  | none => (st, .error .taskNotFound)
  | some existing =>
    if existing.person_id ≠ actor then
      (st, .error .deletePermission)
    else
      ((delete_task st existing now).1, .ok ())

/-- Embedding of Tasks.post (src/flask/app/views/task.py).  The parameter
newId is the entity id the store generates on first insert (modelled from
the spec: save assigns entity_id on first insert; the VersionedModel base
is not under src/).  The absent-title branch embeds the helper
validate_required_fields, which is not under src/; modelled from the spec:
a missing title is a validation error.  The Bool in the payload is false
because the handler returns the save result without re-fetching by id. -/
def tasksPost (st : List Task) (actor : String) (title : Option String)
    (newId : String) (now : Nat) : List Task × Except ApiErr (Task × Bool) :=
  match title with
  | none => (st, .error .titleRequired)
  | some t =>
    if t == "" || pyStrip t == "" then
      (st, .error .titleEmpty)
    else
      let newTask : Task :=
        { entity_id := newId, person_id := actor, title := pyStrip t,
          completed := false, active := true, changed_on := 0 }
      let r := saveTask st newTask now
      (r.1, .ok (r.2, false))

/-- Embedding of Me.put (src/flask/app/views/person.py).  First the Python
truthiness check (not first_name and not last_name), then the per-field
provided-but-empty checks, then fetch, assign trimmed values, save and
re-fetch.  The Bool in the payload is true because the returned record is
the result of the get_person_by_id call made after the save. -/
def personPut (ps : List Person) (actor : String)
    (first_name last_name : Option String) :
    List Person × Except ApiErr (Person × Bool) :=
  if pyFalsy first_name && pyFalsy last_name then
    (ps, .error .atLeastOnePersonField)
  else if providedButEmpty first_name then
    (ps, .error .firstNameEmptyIfProvided)
  else if providedButEmpty last_name then
    (ps, .error .lastNameEmptyIfProvided)
  else
    match getPerson ps actor with
    | none => (ps, .error .personNotFound)
    | some db =>
      let ps2 := (savePerson ps (applyProfile db first_name last_name)).1
      match getPerson ps2 actor with
      | some saved => (ps2, .ok (saved, true))
      | none => (ps2, .error .personNotFound)

/-! Helper lemmas about the modelled store. -/

/-- A find? hit implies the any test succeeds for the same predicate. -/
lemma any_of_find?_eq_some {α : Type} {q : α → Bool} {st : List α} {x : α}
    (h : st.find? q = some x) : st.any q = true :=
  List.any_eq_true.mpr ⟨x, List.mem_of_find?_eq_some h, List.find?_some h⟩

/-- Replacing every record matching q by a record that itself matches q
commutes with find? on q. -/
lemma find?_map_if {α : Type} (q : α → Bool) (t' : α) (hq : q t' = true)
    (st : List α) :
    (st.map fun r => if q r then t' else r).find? q
      = (st.find? q).map (fun _ => t') := by
  induction st with
  | nil => rfl
  | cons r tl ih =>
    by_cases hr : q r
    · simp [List.find?_cons, hr, hq]
    · simp [List.find?_cons, hr, ih]

/-- The record returned by getTask carries the requested entity id. -/
lemma entity_id_of_getTask {st : List Task} {id : String} {t : Task}
    (h : getTask st id = some t) : t.entity_id = id := by
  have h' : st.find? (fun r => r.entity_id == id) = some t := h
  simpa using List.find?_some h'

/-- Saving a task whose entity id is already present takes the update
branch: every record with that id is replaced, and a get by that id
returns the saved record with its refreshed timestamp. -/
lemma getTask_saveTask_found {st : List Task} {id : String} {x : Task}
    (t : Task) (now : Nat) (hid : t.entity_id = id)
    (hfind : getTask st id = some x) :
    (saveTask st t now).1
        = st.map (fun r =>
            if r.entity_id == t.entity_id then { t with changed_on := now } else r)
      ∧ getTask (saveTask st t now).1 id = some { t with changed_on := now } := by
  subst hid
  have hfind' : st.find? (fun r => r.entity_id == t.entity_id) = some x := hfind
  have hany : st.any (fun r => r.entity_id == t.entity_id) = true :=
    any_of_find?_eq_some hfind'
  have h1 : (saveTask st t now).1
      = st.map (fun r =>
          if r.entity_id == t.entity_id then { t with changed_on := now } else r) := by
    simp [saveTask, hany]
  refine ⟨h1, ?_⟩
  rw [h1]
  unfold getTask
  rw [find?_map_if (fun r : Task => r.entity_id == t.entity_id)
    { t with changed_on := now } (by simp) st, hfind']
  rfl

/-- Saving a task whose entity id is fresh takes the insert branch: the
record is appended and a get by the new id returns it. -/
lemma getTask_saveTask_fresh {st : List Task} (t : Task) (now : Nat)
    (hfresh : ∀ r ∈ st, r.entity_id ≠ t.entity_id) :
    (saveTask st t now).1 = st ++ [{ t with changed_on := now }]
      ∧ getTask (saveTask st t now).1 t.entity_id
          = some { t with changed_on := now } := by
  have hany : st.any (fun r => r.entity_id == t.entity_id) = false := by
    rw [← Bool.not_eq_true, List.any_eq_true]
    rintro ⟨x, hx, hq⟩
    exact hfresh x hx (by simpa using hq)
  have h1 : (saveTask st t now).1 = st ++ [{ t with changed_on := now }] := by
    simp [saveTask, hany]
  refine ⟨h1, ?_⟩
  rw [h1]
  unfold getTask
  rw [List.find?_append,
    List.find?_eq_none.mpr (fun x hx => by simpa using hfresh x hx)]
  simp [List.find?_cons]

/-- Person analogue of the update-branch save lemma. -/
lemma getPerson_savePerson_found {ps : List Person} {id : String} {x : Person}
    (p : Person) (hid : p.entity_id = id) (hfind : getPerson ps id = some x) :
    (savePerson ps p).1
        = ps.map (fun r => if r.entity_id == p.entity_id then p else r)
      ∧ getPerson (savePerson ps p).1 id = some p := by
  subst hid
  have hfind' : ps.find? (fun r => r.entity_id == p.entity_id) = some x := hfind
  have hany : ps.any (fun r => r.entity_id == p.entity_id) = true :=
    any_of_find?_eq_some hfind'
  have h1 : (savePerson ps p).1
      = ps.map (fun r => if r.entity_id == p.entity_id then p else r) := by
    simp [savePerson, hany]
  refine ⟨h1, ?_⟩
  rw [h1]
  unfold getPerson
  rw [find?_map_if (fun r : Person => r.entity_id == p.entity_id) p (by simp) ps,
    hfind']
  rfl

/-- The entity returned by saveTask is the input with its timestamp
refreshed, in both the insert and the update branch. -/
lemma saveTask_snd (st : List Task) (t : Task) (now : Nat) :
    (saveTask st t now).2 = { t with changed_on := now } := by
  unfold saveTask
  split <;> rfl

/-- The entity returned by savePerson is the input itself. -/
lemma savePerson_snd (ps : List Person) (p : Person) :
    (savePerson ps p).2 = p := by
  unfold savePerson
  split <;> rfl

/-- Field assignments never touch the entity id. -/
lemma applyUpdate_entity_id (t : Task) (title : Option String)
    (completed : Option Value) :
    (applyUpdate t title completed).entity_id = t.entity_id := by
  unfold applyUpdate
  cases title <;> cases completed <;> rfl

/-- Field assignments never touch the person entity id. -/
lemma applyProfile_entity_id (p : Person) (fn ln : Option String) :
    (applyProfile p fn ln).entity_id = p.entity_id := by
  unfold applyProfile
  cases fn <;> cases ln <;> rfl

/-- Running the task update handler when every check passes: the store is
the saved one and the response is the re-fetched saved record. -/
lemma taskPut_run_success (st : List Task) (task_id actor : String)
    (title : Option String) (completed : Option Value) (now : Nat) (t : Task)
    (hnn : ¬(title = none ∧ completed = none))
    (hpe : providedButEmpty title = false)
    (hget : getTask st task_id = some t)
    (hown : t.person_id = actor) :
    taskPut st task_id actor title completed now
      = ((saveTask st (applyUpdate t title completed) now).1,
         .ok ({ applyUpdate t title completed with changed_on := now }, true)) := by
  have hid : (applyUpdate t title completed).entity_id = task_id := by
    rw [applyUpdate_entity_id]
    exact entity_id_of_getTask hget
  have hsave := getTask_saveTask_found (applyUpdate t title completed) now hid hget
  unfold taskPut
  rw [if_neg hnn, if_neg (by simp [hpe])]
  simp only [hget]
  rw [if_neg (by simp [hown])]
  simp only [hsave.2]

/-- Inversion of a successful task update: the response record is the
re-fetched one (flag true), it is the fetched task with the assignments
applied and the timestamp refreshed, and a get by id on the resulting
store returns exactly it. -/
lemma taskPut_ok_inv (st : List Task) (task_id actor : String)
    (title : Option String) (completed : Option Value) (now : Nat)
    (u : Task) (b : Bool)
    (h : (taskPut st task_id actor title completed now).2 = .ok (u, b)) :
    b = true
    ∧ ∃ t, getTask st task_id = some t ∧ t.person_id = actor
        ∧ ¬(title = none ∧ completed = none)
        ∧ providedButEmpty title = false
        ∧ u = { applyUpdate t title completed with changed_on := now }
        ∧ getTask (taskPut st task_id actor title completed now).1 task_id
            = some u := by
  by_cases hnn : title = none ∧ completed = none
  · exfalso
    unfold taskPut at h
    rw [if_pos hnn] at h
    exact absurd h (by simp)
  by_cases hpe : providedButEmpty title = true
  · exfalso
    unfold taskPut at h
    rw [if_neg hnn, if_pos hpe] at h
    exact absurd h (by simp)
  have hpe' : providedButEmpty title = false := by simpa using hpe
  rcases hg : getTask st task_id with _ | t
  · exfalso
    unfold taskPut at h
    rw [if_neg hnn, if_neg hpe] at h
    simp only [hg] at h
    exact absurd h (by simp)
  by_cases hown : t.person_id = actor
  · have run := taskPut_run_success st task_id actor title completed now t
      hnn hpe' hg hown
    rw [run] at h
    simp only [Except.ok.injEq, Prod.mk.injEq] at h
    have hid : (applyUpdate t title completed).entity_id = task_id := by
      rw [applyUpdate_entity_id]
      exact entity_id_of_getTask hg
    have hsave := getTask_saveTask_found (applyUpdate t title completed) now hid hg
    refine ⟨h.2.symm, t, rfl, hown, hnn, hpe', h.1.symm, ?_⟩
    rw [run, ← h.1]
    exact hsave.2
  · exfalso
    unfold taskPut at h
    rw [if_neg hnn, if_neg hpe] at h
    simp only [hg] at h
    rw [if_pos hown] at h
    exact absurd h (by simp)

/-- Any error raised by the task update handler before the save leaves the
store untouched; validation errors always do. -/
lemma taskPut_error_state (st : List Task) (task_id actor : String)
    (title : Option String) (completed : Option Value) (now : Nat)
    (e : ApiErr) (h : (taskPut st task_id actor title completed now).2 = .error e) :
    (taskPut st task_id actor title completed now).1 = st := by
  by_cases hnn : title = none ∧ completed = none
  · unfold taskPut
    rw [if_pos hnn]
  by_cases hpe : providedButEmpty title = true
  · unfold taskPut
    rw [if_neg hnn, if_pos hpe]
  rcases hg : getTask st task_id with _ | t
  · unfold taskPut
    rw [if_neg hnn, if_neg hpe]
    simp only [hg]
  by_cases hown : t.person_id = actor
  · exfalso
    have run := taskPut_run_success st task_id actor title completed now t
      hnn (by simpa using hpe) hg hown
    rw [run] at h
    exact absurd h (by simp)
  · unfold taskPut
    rw [if_neg hnn, if_neg hpe]
    simp only [hg]
    rw [if_pos hown]

/-- Running the person update handler when every check passes. -/
lemma personPut_run_success (ps : List Person) (actor : String)
    (fn ln : Option String) (db : Person)
    (h1 : (pyFalsy fn && pyFalsy ln) = false)
    (h2 : providedButEmpty fn = false)
    (h3 : providedButEmpty ln = false)
    (hget : getPerson ps actor = some db) :
    personPut ps actor fn ln
      = ((savePerson ps (applyProfile db fn ln)).1,
         .ok (applyProfile db fn ln, true)) := by
  have hid : (applyProfile db fn ln).entity_id = actor := by
    rw [applyProfile_entity_id]
    have h' : ps.find? (fun r => r.entity_id == actor) = some db := hget
    simpa using List.find?_some h'
  have hsave := getPerson_savePerson_found (applyProfile db fn ln) hid hget
  unfold personPut
  rw [if_neg (by simp [h1]), if_neg (by simp [h2]), if_neg (by simp [h3])]
  simp only [hget]
  simp only [hsave.2]

/-- Inversion of a successful person update: the response record is the
re-fetched one (flag true), it is the fetched person with the assignments
applied, and a get by id on the resulting store returns exactly it. -/
lemma personPut_ok_inv (ps : List Person) (actor : String)
    (fn ln : Option String) (u : Person) (b : Bool)
    (h : (personPut ps actor fn ln).2 = .ok (u, b)) :
    b = true
    ∧ ∃ db, getPerson ps actor = some db
        ∧ u = applyProfile db fn ln
        ∧ getPerson (personPut ps actor fn ln).1 actor = some u := by
  by_cases c1 : (pyFalsy fn && pyFalsy ln) = true
  · exfalso
    unfold personPut at h
    rw [if_pos c1] at h
    exact absurd h (by simp)
  by_cases c2 : providedButEmpty fn = true
  · exfalso
    unfold personPut at h
    rw [if_neg c1, if_pos c2] at h
    exact absurd h (by simp)
  by_cases c3 : providedButEmpty ln = true
  · exfalso
    unfold personPut at h
    rw [if_neg c1, if_neg c2, if_pos c3] at h
    exact absurd h (by simp)
  rcases hg : getPerson ps actor with _ | db
  · exfalso
    unfold personPut at h
    rw [if_neg c1, if_neg c2, if_neg c3] at h
    simp only [hg] at h
    exact absurd h (by simp)
  · have run := personPut_run_success ps actor fn ln db (by simpa using c1)
      (by simpa using c2) (by simpa using c3) hg
    rw [run] at h
    simp only [Except.ok.injEq, Prod.mk.injEq] at h
    have hid : (applyProfile db fn ln).entity_id = actor := by
      rw [applyProfile_entity_id]
      have h' : ps.find? (fun r => r.entity_id == actor) = some db := hg
      simpa using List.find?_some h'
    have hsave := getPerson_savePerson_found (applyProfile db fn ln) hid hg
    refine ⟨h.2.symm, db, rfl, h.1.symm, ?_⟩
    rw [run, ← h.1]
    exact hsave.2

/-! Claim theorems. -/

/-- C2: for every person id p, the listing returns exactly the active
tasks owned by p — never a task of another owner — in non-increasing
changed_on order (most recently changed first), and the empty list rather
than an error when no such task exists. -/
theorem C2_list_by_owner_exact (st : List Task) (p : String) :
    (∀ t ∈ get_tasks_by_person_id_ordered st p, t.person_id = p ∧ t.active = true)
    ∧ (∀ t : Task, t ∈ get_tasks_by_person_id_ordered st p
        ↔ t ∈ st ∧ t.person_id = p ∧ t.active = true)
    ∧ List.Pairwise (fun a b => b.changed_on ≤ a.changed_on)
        (get_tasks_by_person_id_ordered st p)
    ∧ ((∀ t ∈ st, ¬(t.person_id = p ∧ t.active = true)) →
        get_tasks_by_person_id_ordered st p = []) := by
  have hmem : ∀ t : Task, t ∈ get_tasks_by_person_id_ordered st p
      ↔ t ∈ st ∧ t.person_id = p ∧ t.active = true := by
    intro t
    unfold get_tasks_by_person_id_ordered
    rw [List.mem_mergeSort, List.mem_filter]
    simp [taskMatches]
  refine ⟨fun t ht => ((hmem t).1 ht).2, hmem, ?_, ?_⟩
  · have htrans : ∀ a b c : Task, changedOnDesc a b = true →
        changedOnDesc b c = true → changedOnDesc a c = true := by
      intro a b c hab hbc
      unfold changedOnDesc at hab hbc ⊢
      simp only [decide_eq_true_eq] at hab hbc ⊢
      omega
    have htotal : ∀ a b : Task, (changedOnDesc a b || changedOnDesc b a) = true := by
      intro a b
      unfold changedOnDesc
      rcases Nat.le_total a.changed_on b.changed_on with h | h
      · simp [h]
      · simp [h]
    have hs := @List.sorted_mergeSort Task changedOnDesc htrans htotal
      (st.filter (taskMatches p))
    exact List.Pairwise.imp
      (fun h => by simpa [changedOnDesc] using h) hs
  · intro hnone
    unfold get_tasks_by_person_id_ordered
    have hfil : st.filter (taskMatches p) = [] := by
      rw [List.filter_eq_nil_iff]
      intro a ha hm
      simp only [taskMatches, Bool.and_eq_true, beq_iff_eq] at hm
      exact hnone a ha ⟨hm.1, by simpa using hm.2⟩
    rw [hfil]
    simp

/-- C2 witness: a concrete store with two tasks of other owners yields the
empty listing, via the main theorem. -/
theorem C2_list_by_owner_exact_witness :
    get_tasks_by_person_id_ordered
      [{ entity_id := "a", person_id := "p1", title := "x",
         completed := false, active := true, changed_on := 1 },
       { entity_id := "b", person_id := "p2", title := "y",
         completed := false, active := true, changed_on := 2 }] "p3" = [] :=
  (C2_list_by_owner_exact _ "p3").2.2.2 (by decide)

/-- C4: soft delete sets active to false and persists the record in place,
without physically removing it (the store keeps its length and the record
is still retrievable by id), and every subsequent listing — for any owner,
in particular the task owner — excludes the soft-deleted task. -/
theorem C4_soft_delete (st : List Task) (t : Task) (now : Nat)
    (hget : getTask st t.entity_id = some t) :
    (delete_task st t now).2 = { t with active := false, changed_on := now }
    ∧ getTask (delete_task st t now).1 t.entity_id
        = some { t with active := false, changed_on := now }
    ∧ (delete_task st t now).1.length = st.length
    ∧ (∀ p, ∀ q ∈ get_tasks_by_person_id (delete_task st t now).1 p,
        q.entity_id ≠ t.entity_id) := by
  have hid : ({ t with active := false } : Task).entity_id = t.entity_id := rfl
  have hsave := getTask_saveTask_found { t with active := false } now hid hget
  refine ⟨?_, hsave.2, ?_, ?_⟩
  · show (saveTask st { t with active := false } now).2 = _
    rw [saveTask_snd]
  · show (saveTask st { t with active := false } now).1.length = st.length
    rw [hsave.1, List.length_map]
  · intro p q hq hqe
    have hq' : q ∈ (saveTask st { t with active := false } now).1
        ∧ taskMatches p q = true := by
      unfold get_tasks_by_person_id get_tasks_by_person_id_ordered at hq
      rw [List.mem_mergeSort, List.mem_filter] at hq
      exact hq
    rcases hq' with ⟨hmem, hmatch⟩
    rw [hsave.1] at hmem
    rcases List.mem_map.1 hmem with ⟨r0, hr0, hrq⟩
    simp only [taskMatches, Bool.and_eq_true, beq_iff_eq] at hmatch
    by_cases hr : (r0.entity_id == ({ t with active := false } : Task).entity_id) = true
    · rw [if_pos hr] at hrq
      rw [← hrq] at hmatch
      simpa using hmatch.2
    · rw [if_neg hr] at hrq
      rw [← hrq] at hqe
      exact hr (by simpa using hqe)

/-- C4 witness: deleting a concrete task flips its active flag, keeps the
store length and removes it from the owner listing. -/
theorem C4_soft_delete_witness :
    (delete_task
        [{ entity_id := "t1", person_id := "p1", title := "a",
           completed := false, active := true, changed_on := 0 }]
        { entity_id := "t1", person_id := "p1", title := "a",
          completed := false, active := true, changed_on := 0 } 4).2
      = { entity_id := "t1", person_id := "p1", title := "a",
          completed := false, active := false, changed_on := 4 }
    ∧ (delete_task
        [{ entity_id := "t1", person_id := "p1", title := "a",
           completed := false, active := true, changed_on := 0 }]
        { entity_id := "t1", person_id := "p1", title := "a",
          completed := false, active := true, changed_on := 0 } 4).1.length = 1 := by
  have h := C4_soft_delete
    [{ entity_id := "t1", person_id := "p1", title := "a",
       completed := false, active := true, changed_on := 0 }]
    { entity_id := "t1", person_id := "p1", title := "a",
      completed := false, active := true, changed_on := 0 } 4 rfl
  exact ⟨h.1, h.2.2.1⟩

/-- C3: creating with a title that is empty or whitespace-only after
trimming (or absent) fails with a validation error and stores nothing;
otherwise the persisted task carries the trimmed title, completed false,
active true and the acting person as owner, and a get by the generated id
immediately afterwards returns exactly that record. -/
theorem C3_create (st : List Task) (actor title newId : String) (now : Nat)
    (hfresh : ∀ r ∈ st, r.entity_id ≠ newId) :
    (pyStrip title = "" →
        tasksPost st actor (some title) newId now = (st, .error .titleEmpty))
    ∧ tasksPost st actor none newId now = (st, .error .titleRequired)
    ∧ (pyStrip title ≠ "" →
        ∃ saved, (tasksPost st actor (some title) newId now).2 = .ok (saved, false)
          ∧ saved.title = pyStrip title
          ∧ saved.completed = false ∧ saved.active = true
          ∧ saved.person_id = actor ∧ saved.entity_id = newId
          ∧ getTask (tasksPost st actor (some title) newId now).1 newId
              = some saved) := by
  refine ⟨?_, rfl, ?_⟩
  · intro h0
    simp [tasksPost, h0]
  · intro hne
    have htne : title ≠ "" := fun h => hne (by rw [h]; rfl)
    have hcond : (title == "" || pyStrip title == "") = false := by
      simp only [Bool.or_eq_false_iff, beq_eq_false_iff_ne, ne_eq]
      exact ⟨htne, hne⟩
    have hrun : tasksPost st actor (some title) newId now
        = ((saveTask st
              { entity_id := newId, person_id := actor, title := pyStrip title,
                completed := false, active := true, changed_on := 0 } now).1,
           .ok ((saveTask st
              { entity_id := newId, person_id := actor, title := pyStrip title,
                completed := false, active := true, changed_on := 0 } now).2,
            false)) := by
      simp only [tasksPost, hcond, Bool.false_eq_true, if_false]
    have hsave := getTask_saveTask_fresh
      { entity_id := newId, person_id := actor, title := pyStrip title,
        completed := false, active := true, changed_on := 0 } now
      (fun r hr => hfresh r hr)
    refine ⟨{ entity_id := newId, person_id := actor, title := pyStrip title,
              completed := false, active := true, changed_on := now },
      ?_, rfl, rfl, rfl, rfl, rfl, ?_⟩
    · rw [hrun, saveTask_snd]
    · rw [hrun]
      exact hsave.2

/-- C3 witness: a whitespace-only title is rejected with the store left
empty, and a concrete padded title is stored trimmed with the default
flags and is found by a get on the generated id. -/
theorem C3_create_witness :
    tasksPost [] "p1" (some "   ") "t1" 5 = ([], .error .titleEmpty)
    ∧ (∃ saved, (tasksPost [] "p1" (some " milk ") "t1" 5).2 = .ok (saved, false)
        ∧ saved.title = pyStrip " milk "
        ∧ saved.completed = false ∧ saved.active = true
        ∧ saved.person_id = "p1" ∧ saved.entity_id = "t1"
        ∧ getTask (tasksPost [] "p1" (some " milk ") "t1" 5).1 "t1"
            = some saved) :=
  ⟨(C3_create [] "p1" "   " "t1" 5 (by simp)).1 (by decide),
   (C3_create [] "p1" " milk " "t1" 5 (by simp)).2.2 (by decide)⟩

/-- C1 counterexample: an update request that supplies no fields, aimed at
an existing task owned by a different person, fails with the
missing-fields validation error rather than the permission error, so the
claim as stated fails on that input (the claim expects the permission
error for every mismatched update request). -/
theorem C1_counterexample :
    getTask [{ entity_id := "t1", person_id := "p1", title := "walk",
               completed := false, active := true, changed_on := 0 }] "t1"
      = some { entity_id := "t1", person_id := "p1", title := "walk",
               completed := false, active := true, changed_on := 0 }
    ∧ ("p1" : String) ≠ "p2"
    ∧ (taskPut [{ entity_id := "t1", person_id := "p1", title := "walk",
                  completed := false, active := true, changed_on := 0 }]
        "t1" "p2" none none 5).2 = .error .atLeastOneTaskField
    ∧ ApiErr.atLeastOneTaskField ≠ ApiErr.updatePermission :=
  ⟨rfl, by decide, rfl, by decide⟩

/-- C1 amended: when the target task exists and is owned by someone else,
delete always fails with the permission error, and update fails with the
permission error provided the request passes field validation; an update
request failing field validation is rejected with the corresponding
validation error before the ownership check.  The permission errors are
distinct from not-found and every rejection leaves the store unchanged. -/
theorem C1_ownership_mismatch (st : List Task) (task_id actor : String)
    (title : Option String) (completed : Option Value) (now : Nat) (t : Task)
    (hget : getTask st task_id = some t) (hown : t.person_id ≠ actor) :
    taskDelete st task_id actor now = (st, .error .deletePermission)
    ∧ (¬(title = none ∧ completed = none) → providedButEmpty title = false →
        taskPut st task_id actor title completed now
          = (st, .error .updatePermission))
    ∧ (title = none ∧ completed = none →
        taskPut st task_id actor title completed now
          = (st, .error .atLeastOneTaskField))
    ∧ (providedButEmpty title = true →
        taskPut st task_id actor title completed now
          = (st, .error .titleEmptyIfProvided))
    ∧ ApiErr.deletePermission ≠ ApiErr.taskNotFound
    ∧ ApiErr.updatePermission ≠ ApiErr.taskNotFound := by
  refine ⟨?_, ?_, ?_, ?_, by decide, by decide⟩
  · unfold taskDelete
    simp only [hget]
    rw [if_pos hown]
  · intro hnn hpe
    unfold taskPut
    rw [if_neg hnn, if_neg (by simp [hpe])]
    simp only [hget]
    rw [if_pos hown]
  · rintro ⟨h1, h2⟩
    unfold taskPut
    rw [if_pos ⟨h1, h2⟩]
  · intro hpe
    have hnn : ¬(title = none ∧ completed = none) := by
      rintro ⟨h1, _⟩
      rw [h1] at hpe
      simp [providedButEmpty] at hpe
    unfold taskPut
    rw [if_neg hnn, if_pos hpe]

/-- C1 witness: on a concrete store, a delete and a well-formed update by
a non-owner both fail with the respective permission error. -/
theorem C1_ownership_mismatch_witness :
    taskDelete [{ entity_id := "t1", person_id := "p1", title := "walk",
                  completed := false, active := true, changed_on := 0 }]
        "t1" "p2" 9
      = ([{ entity_id := "t1", person_id := "p1", title := "walk",
            completed := false, active := true, changed_on := 0 }],
         .error .deletePermission)
    ∧ taskPut [{ entity_id := "t1", person_id := "p1", title := "walk",
                 completed := false, active := true, changed_on := 0 }]
        "t1" "p2" (some "new") none 9
      = ([{ entity_id := "t1", person_id := "p1", title := "walk",
            completed := false, active := true, changed_on := 0 }],
         .error .updatePermission) := by
  have h := C1_ownership_mismatch
    [{ entity_id := "t1", person_id := "p1", title := "walk",
       completed := false, active := true, changed_on := 0 }]
    "t1" "p2" (some "new") none 9
    { entity_id := "t1", person_id := "p1", title := "walk",
      completed := false, active := true, changed_on := 0 }
    rfl (by decide)
  exact ⟨h.1, h.2.1 (by simp) rfl⟩

/-- C5: an update whose title trims to the empty string fails validation
regardless of the completed value; an update supplying neither field fails
validation; an update supplying only completed with the falsy value false
succeeds, the present-but-falsy field is not treated as absent, and the
stored completed becomes false. -/
theorem C5_update_field_validation (st : List Task) (task_id actor : String)
    (now : Nat) (c : Option Value) (ws : String) (t : Task)
    (hws : pyStrip ws = "")
    (hget : getTask st task_id = some t) (hown : t.person_id = actor) :
    taskPut st task_id actor (some ws) c now
      = (st, .error .titleEmptyIfProvided)
    ∧ taskPut st task_id actor none none now
      = (st, .error .atLeastOneTaskField)
    ∧ (∃ u, (taskPut st task_id actor none (some (.vBool false)) now).2
          = .ok (u, true)
        ∧ u.completed = false
        ∧ getTask (taskPut st task_id actor none (some (.vBool false)) now).1
            task_id = some u) := by
  refine ⟨?_, ?_, ?_⟩
  · unfold taskPut
    rw [if_neg (by simp), if_pos (by simp [providedButEmpty, hws])]
  · unfold taskPut
    rw [if_pos ⟨rfl, rfl⟩]
  · have run := taskPut_run_success st task_id actor none (some (.vBool false))
      now t (by simp) rfl hget hown
    have hid : (applyUpdate t none (some (.vBool false))).entity_id = task_id := by
      rw [applyUpdate_entity_id]
      exact entity_id_of_getTask hget
    have hsave := getTask_saveTask_found (applyUpdate t none (some (.vBool false)))
      now hid hget
    refine ⟨{ applyUpdate t none (some (.vBool false)) with changed_on := now },
      ?_, rfl, ?_⟩
    · rw [run]
    · rw [run]
      exact hsave.2

/-- C5 witness: on a concrete owned task, the empty and whitespace-only
titles are rejected with the store unchanged, and the completed-false-only
update succeeds and stores completed false. -/
theorem C5_update_field_validation_witness :
    taskPut [{ entity_id := "t1", person_id := "p1", title := "a",
               completed := true, active := true, changed_on := 0 }]
        "t1" "p1" (some "") none 3
      = ([{ entity_id := "t1", person_id := "p1", title := "a",
            completed := true, active := true, changed_on := 0 }],
         .error .titleEmptyIfProvided)
    ∧ taskPut [{ entity_id := "t1", person_id := "p1", title := "a",
                 completed := true, active := true, changed_on := 0 }]
        "t1" "p1" (some "   ") none 3
      = ([{ entity_id := "t1", person_id := "p1", title := "a",
            completed := true, active := true, changed_on := 0 }],
         .error .titleEmptyIfProvided)
    ∧ (∃ u, (taskPut [{ entity_id := "t1", person_id := "p1", title := "a",
                        completed := true, active := true, changed_on := 0 }]
          "t1" "p1" none (some (.vBool false)) 3).2 = .ok (u, true)
        ∧ u.completed = false
        ∧ getTask (taskPut [{ entity_id := "t1", person_id := "p1", title := "a",
                              completed := true, active := true, changed_on := 0 }]
            "t1" "p1" none (some (.vBool false)) 3).1 "t1" = some u) := by
  have h1 := C5_update_field_validation
    [{ entity_id := "t1", person_id := "p1", title := "a",
       completed := true, active := true, changed_on := 0 }]
    "t1" "p1" 3 none ""
    { entity_id := "t1", person_id := "p1", title := "a",
      completed := true, active := true, changed_on := 0 }
    (by decide) rfl rfl
  have h2 := C5_update_field_validation
    [{ entity_id := "t1", person_id := "p1", title := "a",
       completed := true, active := true, changed_on := 0 }]
    "t1" "p1" 3 none "   "
    { entity_id := "t1", person_id := "p1", title := "a",
      completed := true, active := true, changed_on := 0 }
    (by decide) rfl rfl
  exact ⟨h1.1, h2.1, h1.2.2⟩

/-- C6 counterexample: a person update providing exactly one field, equal
to the empty string, is reported with the absent-fields error, not the
empty-field error, contradicting the claim for person profile updates. -/
theorem C6_counterexample :
    (personPut [{ entity_id := "p1", first_name := "Ann", last_name := "Lee" }]
        "p1" (some "") none).2 = .error .atLeastOnePersonField
    ∧ ApiErr.atLeastOnePersonField ≠ ApiErr.firstNameEmptyIfProvided :=
  ⟨rfl, by decide⟩

/-- C6 amended: for task updates a provided title trimming to empty always
yields the empty-title error, distinct from the no-fields error.  For
person updates the empty-field errors are produced whenever some provided
field is a non-empty string (in particular for whitespace-only fields);
when every provided field is the empty string — in particular a single
provided field equal to it — the absent-fields error is reported instead. -/
theorem C6_empty_vs_absent (st : List Task) (ps : List Person)
    (task_id actor : String) (tw : String) (c : Option Value) (now : Nat)
    (fn ln : Option String) :
    (pyStrip tw = "" →
        taskPut st task_id actor (some tw) c now
          = (st, .error .titleEmptyIfProvided))
    ∧ ((pyFalsy fn && pyFalsy ln) = false →
        (providedButEmpty fn = true →
            personPut ps actor fn ln = (ps, .error .firstNameEmptyIfProvided))
        ∧ (providedButEmpty fn = false → providedButEmpty ln = true →
            personPut ps actor fn ln = (ps, .error .lastNameEmptyIfProvided)))
    ∧ ((pyFalsy fn && pyFalsy ln) = true →
        personPut ps actor fn ln = (ps, .error .atLeastOnePersonField))
    ∧ ApiErr.titleEmptyIfProvided ≠ ApiErr.atLeastOneTaskField
    ∧ ApiErr.firstNameEmptyIfProvided ≠ ApiErr.atLeastOnePersonField
    ∧ ApiErr.lastNameEmptyIfProvided ≠ ApiErr.atLeastOnePersonField := by
  refine ⟨?_, ?_, ?_, by decide, by decide, by decide⟩
  · intro hws
    unfold taskPut
    rw [if_neg (by simp), if_pos (by simp [providedButEmpty, hws])]
  · intro hfl
    constructor
    · intro hfe
      unfold personPut
      rw [if_neg (by simp [hfl]), if_pos hfe]
    · intro hfe hle
      unfold personPut
      rw [if_neg (by simp [hfl]), if_neg (by simp [hfe]), if_pos hle]
  · intro hfl
    unfold personPut
    rw [if_pos hfl]

/-- C6 witness: a whitespace-only title and a whitespace-only first name
accompanied by a non-empty last name both draw the empty-field errors. -/
theorem C6_empty_vs_absent_witness :
    taskPut [] "t1" "p1" (some "  ") none 2 = ([], .error .titleEmptyIfProvided)
    ∧ personPut [] "p1" (some "   ") (some "Lee")
        = ([], .error .firstNameEmptyIfProvided) := by
  have h := C6_empty_vs_absent [] [] "t1" "p1" "  " none 2 (some "   ") (some "Lee")
  exact ⟨h.1 (by decide), (h.2.1 (by decide)).1 (by decide)⟩

/-- C7: a person profile update must supply at least one of the two name
fields and every supplied field must be non-empty after trimming — any
violation is rejected with a validation error and the store unchanged; on
success the supplied fields are stored trimmed and an unspecified field
keeps its previous stored value. -/
theorem C7_profile_update (ps : List Person) (actor : String)
    (fn ln : Option String) (db : Person)
    (hget : getPerson ps actor = some db) :
    ((fn = none ∧ ln = none) ∨ (∃ f, fn = some f ∧ pyStrip f = "")
        ∨ (∃ l, ln = some l ∧ pyStrip l = "") →
      ∃ e, personPut ps actor fn ln = (ps, .error e) ∧ e.isValidation = true)
    ∧ ((∀ f, fn = some f → pyStrip f ≠ "") →
        (∀ l, ln = some l → pyStrip l ≠ "") →
        ¬(fn = none ∧ ln = none) →
        (personPut ps actor fn ln).2 = .ok (applyProfile db fn ln, true)
        ∧ (applyProfile db fn ln).first_name
            = (match fn with | some f => pyStrip f | none => db.first_name)
        ∧ (applyProfile db fn ln).last_name
            = (match ln with | some l => pyStrip l | none => db.last_name)) := by
  constructor
  · intro hbad
    by_cases c1 : (pyFalsy fn && pyFalsy ln) = true
    · exact ⟨.atLeastOnePersonField, by unfold personPut; rw [if_pos c1], rfl⟩
    by_cases c2 : providedButEmpty fn = true
    · exact ⟨.firstNameEmptyIfProvided,
        by unfold personPut; rw [if_neg c1, if_pos c2], rfl⟩
    by_cases c3 : providedButEmpty ln = true
    · exact ⟨.lastNameEmptyIfProvided,
        by unfold personPut; rw [if_neg c1, if_neg c2, if_pos c3], rfl⟩
    · exfalso
      rcases hbad with ⟨h1, h2⟩ | ⟨f, hf, hfe⟩ | ⟨l, hl, hle⟩
      · exact c1 (by rw [h1, h2]; rfl)
      · exact c2 (by rw [hf]; simp [providedButEmpty, hfe])
      · exact c3 (by rw [hl]; simp [providedButEmpty, hle])
  · intro hf hl hnn
    have h2 : providedButEmpty fn = false := by
      cases fn with
      | none => rfl
      | some f =>
        have hfe := hf f rfl
        have hfne : f ≠ "" := fun hh => hfe (by rw [hh]; rfl)
        simp only [providedButEmpty, Bool.or_eq_false_iff, beq_eq_false_iff_ne,
          ne_eq]
        exact ⟨hfne, hfe⟩
    have h3 : providedButEmpty ln = false := by
      cases ln with
      | none => rfl
      | some l =>
        have hle := hl l rfl
        have hlne : l ≠ "" := fun hh => hle (by rw [hh]; rfl)
        simp only [providedButEmpty, Bool.or_eq_false_iff, beq_eq_false_iff_ne,
          ne_eq]
        exact ⟨hlne, hle⟩
    have h1 : (pyFalsy fn && pyFalsy ln) = false := by
      cases fn with
      | some f =>
        have hfe := hf f rfl
        have hfne : f ≠ "" := fun hh => hfe (by rw [hh]; rfl)
        simp [pyFalsy, hfne]
      | none =>
        cases ln with
        | none => exact absurd ⟨rfl, rfl⟩ hnn
        | some l =>
          have hle := hl l rfl
          have hlne : l ≠ "" := fun hh => hle (by rw [hh]; rfl)
          simp [pyFalsy, hlne]
    have run := personPut_run_success ps actor fn ln db h1 h2 h3 hget
    refine ⟨by rw [run], ?_, ?_⟩
    · unfold applyProfile
      cases fn <;> cases ln <;> rfl
    · unfold applyProfile
      cases fn <;> cases ln <;> rfl

/-- C7 witness: with a concrete stored person, the no-fields request draws
a validation error and a padded first name is stored trimmed while the
unspecified last name keeps its previous value. -/
theorem C7_profile_update_witness :
    (∃ e, personPut [{ entity_id := "p1", first_name := "Ann", last_name := "Lee" }]
        "p1" none none
        = ([{ entity_id := "p1", first_name := "Ann", last_name := "Lee" }], .error e)
      ∧ e.isValidation = true)
    ∧ (personPut [{ entity_id := "p1", first_name := "Ann", last_name := "Lee" }]
        "p1" (some " Al ") none).2
      = .ok (applyProfile { entity_id := "p1", first_name := "Ann", last_name := "Lee" }
          (some " Al ") none, true)
    ∧ (applyProfile { entity_id := "p1", first_name := "Ann", last_name := "Lee" }
        (some " Al ") none).first_name = pyStrip " Al "
    ∧ (applyProfile { entity_id := "p1", first_name := "Ann", last_name := "Lee" }
        (some " Al ") none).last_name = "Lee" := by
  have ha := C7_profile_update
    [{ entity_id := "p1", first_name := "Ann", last_name := "Lee" }] "p1"
    none none
    { entity_id := "p1", first_name := "Ann", last_name := "Lee" } rfl
  have hb := C7_profile_update
    [{ entity_id := "p1", first_name := "Ann", last_name := "Lee" }] "p1"
    (some " Al ") none
    { entity_id := "p1", first_name := "Ann", last_name := "Lee" } rfl
  have hs := hb.2 (by intro f hf; cases hf; decide) (by simp) (by simp)
  exact ⟨ha.1 (Or.inl ⟨rfl, rfl⟩), hs.1, hs.2.1, hs.2.2⟩

/-- C8 counterexample: a concrete successful create returns the record
produced by the save call itself — the provenance flag of the response is
false, meaning no re-fetch by id was performed — contradicting the claim
that the API layer re-fetches after every create. -/
theorem C8_counterexample :
    (tasksPost [] "p1" (some "walk dog") "t1" 7).2
      = .ok ({ entity_id := "t1", person_id := "p1", title := "walk dog",
               completed := false, active := true, changed_on := 7 }, false) :=
  rfl

/-- C8 amended: after every task update and every person update the API
layer re-fetches the entity by id and returns that re-fetched record (the
response is exactly what a get by id on the resulting store yields); after
a create the API layer returns the record from the save call without a
separate re-fetch, and under the repository contract that record equals
what a get by the generated id returns on the resulting store. -/
theorem C8_read_after_write (st : List Task) (ps : List Person)
    (task_id actor : String) (ti : Option String) (c : Option Value)
    (fn ln : Option String) (newId : String) (now : Nat) :
    (∀ u b, (taskPut st task_id actor ti c now).2 = .ok (u, b) →
        b = true
        ∧ getTask (taskPut st task_id actor ti c now).1 task_id = some u)
    ∧ (∀ u b, (personPut ps actor fn ln).2 = .ok (u, b) →
        b = true
        ∧ getPerson (personPut ps actor fn ln).1 actor = some u)
    ∧ (∀ u b, (tasksPost st actor ti newId now).2 = .ok (u, b) →
        b = false
        ∧ ((∀ r ∈ st, r.entity_id ≠ newId) →
            getTask (tasksPost st actor ti newId now).1 newId = some u)) := by
  refine ⟨?_, ?_, ?_⟩
  · intro u b h
    obtain ⟨hb, t, _, _, _, _, _, hgt⟩ := taskPut_ok_inv st task_id actor ti c now u b h
    exact ⟨hb, hgt⟩
  · intro u b h
    obtain ⟨hb, db, _, _, hgt⟩ := personPut_ok_inv ps actor fn ln u b h
    exact ⟨hb, hgt⟩
  · intro u b h
    cases ti with
    | none =>
      exfalso
      exact absurd h (by simp [tasksPost])
    | some t =>
      by_cases hc : (t == "" || pyStrip t == "") = true
      · exfalso
        simp only [tasksPost] at h
        rw [if_pos hc] at h
        exact absurd h (by simp)
      · have hrun : tasksPost st actor (some t) newId now
            = ((saveTask st
                  { entity_id := newId, person_id := actor, title := pyStrip t,
                    completed := false, active := true, changed_on := 0 } now).1,
               .ok ((saveTask st
                  { entity_id := newId, person_id := actor, title := pyStrip t,
                    completed := false, active := true, changed_on := 0 } now).2,
                false)) := by
          simp only [tasksPost, (by simpa using hc : (t == "" || pyStrip t == "") = false),
            Bool.false_eq_true, if_false]
        rw [hrun] at h
        simp only [Except.ok.injEq, Prod.mk.injEq] at h
        refine ⟨h.2.symm, fun hfresh => ?_⟩
        have hsave := getTask_saveTask_fresh
          { entity_id := newId, person_id := actor, title := pyStrip t,
            completed := false, active := true, changed_on := 0 } now
          (fun r hr => hfresh r hr)
        rw [hrun, ← h.1, saveTask_snd]
        exact hsave.2

/-- C8 witness: a concrete task update succeeds and the response is the
record a get by id returns on the resulting store. -/
theorem C8_read_after_write_witness :
    (taskPut [{ entity_id := "t1", person_id := "p1", title := "a",
                completed := false, active := true, changed_on := 0 }]
        "t1" "p1" (some "b") none 1).2
      = .ok ({ entity_id := "t1", person_id := "p1", title := "b",
               completed := false, active := true, changed_on := 1 }, true)
    ∧ getTask (taskPut [{ entity_id := "t1", person_id := "p1", title := "a",
                          completed := false, active := true, changed_on := 0 }]
        "t1" "p1" (some "b") none 1).1 "t1"
      = some { entity_id := "t1", person_id := "p1", title := "b",
               completed := false, active := true, changed_on := 1 } := by
  have h := (C8_read_after_write
    [{ entity_id := "t1", person_id := "p1", title := "a",
       completed := false, active := true, changed_on := 0 }]
    [] "t1" "p1" (some "b") none none none "n" 1).1
    { entity_id := "t1", person_id := "p1", title := "b",
      completed := false, active := true, changed_on := 1 } true rfl
  exact ⟨rfl, h.2⟩

/-- C9: whenever a handler rejects a request with a validation error
(missing field set, empty or whitespace-only provided field), no write is
performed — the resulting store is exactly the store before the request,
for all four mutating handlers. -/
theorem C9_validation_failure_no_write (st : List Task) (ps : List Person)
    (task_id actor : String) (ti : Option String) (c : Option Value)
    (fn ln : Option String) (newId : String) (now : Nat) :
    (∀ e, (taskPut st task_id actor ti c now).2 = .error e →
        e.isValidation = true → (taskPut st task_id actor ti c now).1 = st)
    ∧ (∀ e, (taskDelete st task_id actor now).2 = .error e →
        e.isValidation = true → (taskDelete st task_id actor now).1 = st)
    ∧ (∀ e, (tasksPost st actor ti newId now).2 = .error e →
        e.isValidation = true → (tasksPost st actor ti newId now).1 = st)
    ∧ (∀ e, (personPut ps actor fn ln).2 = .error e →
        e.isValidation = true → (personPut ps actor fn ln).1 = ps) := by
  refine ⟨fun e h _ => taskPut_error_state st task_id actor ti c now e h,
    ?_, ?_, ?_⟩
  · intro e h _
    rcases hg : getTask st task_id with _ | t
    · unfold taskDelete
      simp only [hg]
    · by_cases hown : t.person_id = actor
      · exfalso
        unfold taskDelete at h
        simp only [hg] at h
        rw [if_neg (by simp [hown])] at h
        exact absurd h (by simp)
      · unfold taskDelete
        simp only [hg]
        rw [if_pos hown]
  · intro e h _
    cases ti with
    | none => rfl
    | some t =>
      by_cases hc : (t == "" || pyStrip t == "") = true
      · simp only [tasksPost]
        rw [if_pos hc]
      · exfalso
        simp only [tasksPost] at h
        rw [if_neg hc] at h
        exact absurd h (by simp)
  · intro e h hval
    by_cases c1 : (pyFalsy fn && pyFalsy ln) = true
    · unfold personPut
      rw [if_pos c1]
    by_cases c2 : providedButEmpty fn = true
    · unfold personPut
      rw [if_neg c1, if_pos c2]
    by_cases c3 : providedButEmpty ln = true
    · unfold personPut
      rw [if_neg c1, if_neg c2, if_pos c3]
    rcases hg : getPerson ps actor with _ | db
    · unfold personPut
      rw [if_neg c1, if_neg c2, if_neg c3]
      simp only [hg]
    · exfalso
      have run := personPut_run_success ps actor fn ln db (by simpa using c1)
        (by simpa using c2) (by simpa using c3) hg
      rw [run] at h
      exact absurd h (by simp)

/-- C9 witness: a no-fields task update and an all-empty person update
leave their concrete stores untouched. -/
theorem C9_validation_failure_no_write_witness :
    (taskPut [] "t1" "p1" none none 0).1 = ([] : List Task)
    ∧ (personPut [] "p1" (some "") (some "")).1 = ([] : List Person) := by
  have h := C9_validation_failure_no_write [] [] "t1" "p1" none none
    (some "") (some "") "n" 0
  exact ⟨h.1 .atLeastOneTaskField rfl rfl, h.2.2.2 .atLeastOnePersonField rfl rfl⟩

/-- C10: whenever a task update supplying a completed value succeeds, the
stored completed flag is the Python bool() truthiness coercion of that
value — a Bool by construction — and in particular non-empty strings and
non-zero numbers coerce to true. -/
theorem C10_completed_truthiness (st : List Task) (task_id actor : String)
    (ti : Option String) (v : Value) (now : Nat) :
    (∀ u b, (taskPut st task_id actor ti (some v) now).2 = .ok (u, b) →
        u.completed = pyBool v
        ∧ getTask (taskPut st task_id actor ti (some v) now).1 task_id = some u)
    ∧ (∀ s, s ≠ "" → pyBool (.vStr s) = true)
    ∧ (∀ n : Int, n ≠ 0 → pyBool (.vNum n) = true) := by
  refine ⟨?_, ?_, ?_⟩
  · intro u b h
    obtain ⟨hb, t, hg, hown, hnn, hpe, hu, hgt⟩ :=
      taskPut_ok_inv st task_id actor ti (some v) now u b h
    refine ⟨?_, hgt⟩
    rw [hu]
    show (applyUpdate t ti (some v)).completed = pyBool v
    unfold applyUpdate
    cases ti <;> rfl
  · intro s hs
    simp [pyBool, hs]
  · intro n hn
    simp [pyBool, hn]

/-- C10 witness: updating a concrete task with the truthy string value
yes stores completed true. -/
theorem C10_completed_truthiness_witness :
    (taskPut [{ entity_id := "t1", person_id := "p1", title := "a",
                completed := false, active := true, changed_on := 0 }]
        "t1" "p1" none (some (.vStr "yes")) 3).2
      = .ok ({ entity_id := "t1", person_id := "p1", title := "a",
               completed := true, active := true, changed_on := 3 }, true)
    ∧ ({ entity_id := "t1", person_id := "p1", title := "a",
         completed := true, active := true, changed_on := 3 } : Task).completed
      = pyBool (.vStr "yes") := by
  have h := (C10_completed_truthiness
    [{ entity_id := "t1", person_id := "p1", title := "a",
       completed := false, active := true, changed_on := 0 }]
    "t1" "p1" none (.vStr "yes") 3).1
    { entity_id := "t1", person_id := "p1", title := "a",
      completed := true, active := true, changed_on := 3 } true rfl
  exact ⟨rfl, h.1⟩

end TodoApi
